import Mathlib

/-!
Verification of the DingoFlow real-time dictation pipeline core.

This file gives a shallow embedding, in Lean, of the pure computational core
of the pipeline: the PCM ingestion queue, the spoken-punctuation rewriter,
the live-chunk normalizer and overlap deduper, the adaptive ASR window
scheduler with its EWMA state, the speech gate, and the per-slice / flush /
stop processing paths of the session orchestrator, together with the chunk
range checks of the two capture backends.

Conventions of the embedding:
* JavaScript numbers are modelled as `ℚ` (exact arithmetic; the claims under
  study are about the algorithmic formulas, not float rounding).
* Byte buffers (`Buffer`) are `List Nat`, one entry per byte (0..255).
* Strings are Lean `String` / `List Char`; the handful of regexes used by the
  source are modelled by dedicated character-level scanners that mirror the
  left-to-right, non-overlapping global-replace semantics of JS `replace`.
* Wall-clock readings (`Date.now()`) and collaborator results (ASR, injector)
  are explicit parameters of the transition functions.
-/

namespace DingoFlow

/-! ### PCM ingestion queue (`DingoFlowApp.enqueueAudioChunk` /
`DingoFlowApp.readPendingAudioSlice`) -/

/-- A queued chunk: `{data, offset, enqueuedAtMs}` from the source. -/
structure QueuedChunk where
  data : List Nat
  off : Nat
  enqueuedAtMs : ℚ
deriving Repr, DecidableEq

/-- The pending-audio queue state: `pendingAudioQueue` and `pendingAudioBytes`. -/
structure AudioQueue where
  chunks : List QueuedChunk
  pendingBytes : Nat
deriving Repr, DecidableEq

def AudioQueue.empty : AudioQueue := ⟨[], 0⟩

/-- `enqueueAudioChunk`: push `{data: chunk, offset: 0, enqueuedAtMs: now}` and
add the chunk length to the pending-byte counter. -/
def enqueueAudioChunk (q : AudioQueue) (chunk : List Nat) (nowMs : ℚ) : AudioQueue :=
  { chunks := q.chunks ++ [⟨chunk, 0, nowMs⟩]
    pendingBytes := q.pendingBytes + chunk.length }

/-- The copy loop of `readPendingAudioSlice`: with `need` bytes still to copy,
drain from the head chunks, advancing offsets and discarding fully consumed
heads.  Returns (copied bytes, remaining queue, oldest enqueue time seen). -/
def drainChunks : List QueuedChunk → Nat → ℚ → List Nat × List QueuedChunk × ℚ
  | [], _, oldest => ([], [], oldest)
  | c :: rest, need, oldest =>
    if need = 0 then ([], c :: rest, oldest)
    else
      let oldest' := min oldest c.enqueuedAtMs
      let available := c.data.length - c.off
      let toCopy := min available need
      let newOff := c.off + toCopy
      if c.data.length ≤ newOff then
        let result := drainChunks rest (need - toCopy) oldest'
        ((c.data.drop c.off).take toCopy ++ result.1, result.2.1, result.2.2)
      else
        ((c.data.drop c.off).take toCopy, ⟨c.data, newOff, c.enqueuedAtMs⟩ :: rest, oldest')

/-- `readPendingAudioSlice(byteCount)`: `none` when `byteCount ≤ 0` or more than
the pending bytes; otherwise drain exactly `byteCount` bytes across head chunks. -/
def readPendingAudioSlice (q : AudioQueue) (byteCount : Nat) (nowMs : ℚ) :
    Option (List Nat × ℚ) × AudioQueue :=
  if byteCount = 0 ∨ q.pendingBytes < byteCount then (none, q)
  else
    let result := drainChunks q.chunks byteCount nowMs
    (some (result.1, result.2.2),
      { chunks := result.2.1, pendingBytes := q.pendingBytes - result.1.length })

/-- One external operation on the queue. -/
inductive QueueOp where
  | enq (chunk : List Nat) (nowMs : ℚ)
  | take (byteCount : Nat) (nowMs : ℚ)
deriving Repr

def applyQueueOp (q : AudioQueue) : QueueOp → AudioQueue × List (List Nat)
  | .enq chunk nowMs => (enqueueAudioChunk q chunk nowMs, [])
  | .take byteCount nowMs =>
    let result := readPendingAudioSlice q byteCount nowMs
    (result.2, (result.1.map Prod.fst).toList)

/-- Run a sequence of operations, collecting the byte payloads returned by
successful takes, in take order. -/
def runQueueOps (q : AudioQueue) : List QueueOp → AudioQueue × List (List Nat)
  | [] => (q, [])
  | op :: rest =>
    let step := applyQueueOp q op
    let tail := runQueueOps step.1 rest
    (tail.1, step.2 ++ tail.2)

/-- All bytes enqueued by a sequence of operations, in enqueue order. -/
def enqueuedBytes : List QueueOp → List Nat
  | [] => []
  | .enq chunk _ :: rest => chunk ++ enqueuedBytes rest
  | .take _ _ :: rest => enqueuedBytes rest

/-- The not-yet-consumed bytes of the queue, in order. -/
def queueContent (chunks : List QueuedChunk) : List Nat :=
  (chunks.map fun c => c.data.drop c.off).flatten

/-! ### Character classes used by the source's regexes -/

/-- JS `\w` (also the character set of a `\b` word boundary): `[A-Za-z0-9_]`. -/
def isWordCharJS (c : Char) : Bool := c.isAlphanum || c = '_'

/-- JS `\s`: space, tab, line terminators, and the Unicode space characters. -/
def isJsSpace (c : Char) : Bool :=
  c = ' ' || c = '\t' || c = '\n' || c = '\r' || c = '\x0b' || c = '\x0c' ||
  c = '\u00A0' || c = '\u1680' || ('\u2000' ≤ c && c ≤ '\u200A') ||
  c = '\u2028' || c = '\u2029' || c = '\u202F' || c = '\u205F' ||
  c = '\u3000' || c = '\uFEFF'

/-- Horizontal whitespace `[ \t]`, the class used by the spacing regexes. -/
def isBlankChar (c : Char) : Bool := c = ' ' || c = '\t'

/-- JS `String.prototype.trim` on a character list. -/
def jsTrimList (s : List Char) : List Char :=
  ((s.dropWhile isJsSpace).reverse.dropWhile isJsSpace).reverse

/-- The test `/[\s\n]$/.test(s)`: the last character is whitespace. -/
def lastIsJsSpace (l : List Char) : Bool :=
  match l.getLast? with
  | some c => isJsSpace c
  | none => false

/-- `/[\s\n]$/.test` on a `String`. -/
def endsInJsWhitespace (s : String) : Bool := lastIsJsSpace s.toList

/-- JS `text.trim()` producing a `String`. -/
def jsTrim (s : String) : String := ⟨jsTrimList s.toList⟩

/-! ### Spoken-punctuation rewriter (`SpokenFormattingProcessor`) -/

structure SpokenFormattingResult where
  text : String
  appliedCommands : Nat
deriving Repr, DecidableEq

/-- The rule table `RULES` of `SpokenFormattingProcessor`, in source order.
Each pattern in the source is `/\bphrase\b/gi`. -/
def RULES : List (String × String) :=
  [("new paragraph", "\n\n"), ("new line", "\n"), ("full stop", "."),
   ("question mark", "?"), ("exclamation mark", "!"),
   ("open parenthesis", "("), ("close parenthesis", ")"),
   ("open bracket", "["), ("close bracket", "]"),
   ("open quote", "\""), ("close quote", "\""),
   ("semicolon", ";"), ("colon", ":"), ("comma", ","), ("period", ".")]

/-- Case-insensitive prefix match (JS `i` flag over the rule phrases). -/
def matchPrefixCI : List Char → List Char → Bool
  | [], _ => true
  | _ :: _, [] => false
  | p :: ps, c :: cs => (p.toLower = c.toLower) && matchPrefixCI ps cs

/-- A `\b` word boundary lies between two (optional) characters iff exactly one
side is a word character. -/
def wordBoundary (a b : Option Char) : Bool :=
  (match a with | none => false | some c => isWordCharJS c) !=
  (match b with | none => false | some c => isWordCharJS c)

/-- Global replace of `/\bphrase\b/gi` scanning left to right over the original
string, counting matches; continuation resumes after each match (fuel-indexed;
the initial fuel `length + 1` always suffices since the phrase is nonempty). -/
def replaceRuleScan (phrase repl : List Char) : Nat → Option Char → List Char →
    List Char × Nat
  | 0, _, s => (s, 0)
  | _ + 1, _, [] => ([], 0)
  | fuel + 1, prev, c :: rest =>
    let s := c :: rest
    let plen := phrase.length
    if matchPrefixCI phrase s && wordBoundary prev (some c) &&
        wordBoundary ((s.take plen).getLast?) s[plen]? then
      let next := replaceRuleScan phrase repl fuel ((s.take plen).getLast?) (s.drop plen)
      (repl ++ next.1, next.2 + 1)
    else
      let next := replaceRuleScan phrase repl fuel (some c) rest
      (c :: next.1, next.2)

/-- The rule-substitution loop of `transform`, threading the applied-commands
counter through all rules in order. -/
def applyRules (s : List Char) : List Char × Nat :=
  RULES.foldl
    (fun acc rule =>
      let res := replaceRuleScan rule.1.toList rule.2.toList (acc.1.length + 1) none acc.1
      (res.1, acc.2 + res.2))
    (s, 0)

/-- `[,.;:!?)}\]]`, the closing-punctuation class of `normalizeSpacing`. -/
def closePunct (c : Char) : Bool :=
  c = ',' || c = '.' || c = ';' || c = ':' || c = '!' || c = '?' ||
  c = ')' || c = '}' || c = ']'

/-- `[({\["]`, the opening-symbol class of `normalizeSpacing`. -/
def openPunct (c : Char) : Bool := c = '(' || c = '{' || c = '[' || c = '"'

/-- `[,.;:!?]`, the sentence-punctuation class of `normalizeSpacing`. -/
def sentencePunct (c : Char) : Bool :=
  c = ',' || c = '.' || c = ';' || c = ':' || c = '!' || c = '?'

/-- `replace(/[ \t]{2,}/g, ' ')`: collapse runs of two or more blanks. -/
def collapseBlankRuns : Nat → List Char → List Char
  | 0, s => s
  | _ + 1, [] => []
  | fuel + 1, c :: rest =>
    if isBlankChar c && (match rest with | d :: _ => isBlankChar d | [] => false) then
      ' ' :: collapseBlankRuns fuel (rest.dropWhile isBlankChar)
    else
      c :: collapseBlankRuns fuel rest

/-- `replace(/[ \t]*\n[ \t]*/g, '\n')`: trim blanks around each newline. -/
def collapseNewlineBlanks : Nat → List Char → List Char
  | 0, s => s
  | _ + 1, [] => []
  | fuel + 1, c :: rest =>
    if isBlankChar c || c = '\n' then
      let s := c :: rest
      let run := s.takeWhile isBlankChar
      let after := s.dropWhile isBlankChar
      match after with
      | '\n' :: tail => '\n' :: collapseNewlineBlanks fuel (tail.dropWhile isBlankChar)
      | _ => run ++ collapseNewlineBlanks fuel after
    else
      c :: collapseNewlineBlanks fuel rest

/-- `replace(/[ ]+([,.;:!?)}\]])/g, '$1')`: drop spaces before closing marks. -/
def removeSpacesBeforeClose : Nat → List Char → List Char
  | 0, s => s
  | _ + 1, [] => []
  | fuel + 1, c :: rest =>
    if c = ' ' then
      let s := c :: rest
      let after := s.dropWhile (· = ' ')
      match after with
      | d :: tail =>
        if closePunct d then d :: removeSpacesBeforeClose fuel tail
        else s.takeWhile (· = ' ') ++ removeSpacesBeforeClose fuel after
      | [] => s
    else
      c :: removeSpacesBeforeClose fuel rest

/-- `replace(/([({\["])\s+/g, '$1')`: drop whitespace after opening symbols. -/
def removeSpacesAfterOpen : Nat → List Char → List Char
  | 0, s => s
  | _ + 1, [] => []
  | fuel + 1, c :: rest =>
    if openPunct c && (match rest with | d :: _ => isJsSpace d | [] => false) then
      c :: removeSpacesAfterOpen fuel (rest.dropWhile isJsSpace)
    else
      c :: removeSpacesAfterOpen fuel rest

/-- `replace(/"\s+([A-Za-z0-9])/g, '"$1')`: close up an opening quote and a
following alphanumeric; the scan resumes after the captured character. -/
def closeQuoteThenAlnum : Nat → List Char → List Char
  | 0, s => s
  | _ + 1, [] => []
  | fuel + 1, c :: rest =>
    if c = '"' && (match rest with | d :: _ => isJsSpace d | [] => false) then
      match rest.dropWhile isJsSpace with
      | d :: tail =>
        if d.isAlphanum then c :: d :: closeQuoteThenAlnum fuel tail
        else c :: closeQuoteThenAlnum fuel rest
      | [] => c :: closeQuoteThenAlnum fuel rest
    else
      c :: closeQuoteThenAlnum fuel rest

/-- `replace(/([A-Za-z0-9.,;:!?])\s+"/g, '$1"')`: close up a word or
punctuation mark and a following closing quote. -/
def closeAlnumThenQuote : Nat → List Char → List Char
  | 0, s => s
  | _ + 1, [] => []
  | fuel + 1, c :: rest =>
    if (c.isAlphanum || sentencePunct c) &&
        (match rest with | d :: _ => isJsSpace d | [] => false) then
      match rest.dropWhile isJsSpace with
      | '"' :: tail => c :: '"' :: closeAlnumThenQuote fuel tail
      | _ => c :: closeAlnumThenQuote fuel rest
    else
      c :: closeAlnumThenQuote fuel rest

/-- `replace(/([,.;:!?])([^\s\n.,;:!?)}\]])/g, '$1 $2')`: ensure punctuation is
followed by a space when the next character is not whitespace or a closer. -/
def spaceAfterPunct : Nat → List Char → List Char
  | 0, s => s
  | _ + 1, [] => []
  | fuel + 1, c :: rest =>
    if sentencePunct c then
      match rest with
      | d :: tail =>
        if !isJsSpace d && !closePunct d then
          c :: ' ' :: d :: spaceAfterPunct fuel tail
        else c :: spaceAfterPunct fuel rest
      | [] => [c]
    else
      c :: spaceAfterPunct fuel rest

/-- `replace(/\n{3,}/g, '\n\n')`: collapse three or more newlines to two. -/
def collapseNewlineRuns : Nat → List Char → List Char
  | 0, s => s
  | _ + 1, [] => []
  | fuel + 1, c :: rest =>
    if c = '\n' then
      let s := c :: rest
      let run := s.takeWhile (· = '\n')
      let after := s.dropWhile (· = '\n')
      if 3 ≤ run.length then '\n' :: '\n' :: collapseNewlineRuns fuel after
      else run ++ collapseNewlineRuns fuel after
    else
      c :: collapseNewlineRuns fuel rest

/-- `stripEdgeSpaces`: `replace(/^[ \t]+|[ \t]+$/g, '')`. -/
def stripEdgeSpaces (s : List Char) : List Char :=
  ((s.dropWhile isBlankChar).reverse.dropWhile isBlankChar).reverse

/-- `normalizeSpacing`, the seven regex passes in source order followed by the
edge strip. -/
def normalizeSpacing (s : List Char) : List Char :=
  let s1 := collapseBlankRuns (s.length + 1) s
  let s2 := collapseNewlineBlanks (s1.length + 1) s1
  let s3 := removeSpacesBeforeClose (s2.length + 1) s2
  let s4 := removeSpacesAfterOpen (s3.length + 1) s3
  let s5 := closeQuoteThenAlnum (s4.length + 1) s4
  let s6 := closeAlnumThenQuote (s5.length + 1) s5
  let s7 := spaceAfterPunct (s6.length + 1) s6
  let s8 := collapseNewlineRuns (s7.length + 1) s7
  stripEdgeSpaces s8

/-- `SpokenFormattingProcessor.transform`. -/
def transform (text : String) : SpokenFormattingResult :=
  if (jsTrim text).isEmpty then ⟨"", 0⟩
  else
    let applied := applyRules text.toList
    ⟨⟨normalizeSpacing applied.1⟩, applied.2⟩

/-! ### Live-chunk normalizer and overlap deduper (`DingoFlowApp`) -/

/-- `normalizeLiveChunkOutput`: strip horizontal edge whitespace, then append a
single trailing space unless the text already ends in whitespace. -/
def normalizeLiveChunkOutput (text : String) : String :=
  let normalizedEdges := stripEdgeSpaces text.toList
  if normalizedEdges.isEmpty then ""
  else if lastIsJsSpace normalizedEdges then ⟨normalizedEdges⟩
  else ⟨normalizedEdges ++ [' ']⟩

/-- `split(/\s+/)` on an already trimmed string: maximal non-whitespace runs. -/
def splitWsAux : Nat → List Char → List (List Char)
  | 0, _ => []
  | _ + 1, [] => []
  | fuel + 1, s =>
    let w := s.takeWhile fun c => !isJsSpace c
    let rest := (s.dropWhile fun c => !isJsSpace c).dropWhile isJsSpace
    w :: splitWsAux fuel rest

def splitWs (s : List Char) : List (List Char) := splitWsAux (s.length + 1) s

/-- The token-character class `[a-z0-9']` of `normalizeWord`. -/
def isTokenChar (c : Char) : Bool :=
  ('a' ≤ c && c ≤ 'z') || c.isDigit || c = '\''

/-- `normalizeWord`: lowercase, then strip the leading and trailing runs of
characters outside `[a-z0-9']`. -/
def normalizeWord (w : List Char) : List Char :=
  let lw := w.map Char.toLower
  ((lw.dropWhile fun c => !isTokenChar c).reverse.dropWhile fun c => !isTokenChar c).reverse

/-- Join normalized words with single spaces (`join(' ')`). -/
def joinWords (ws : List (List Char)) : List Char := List.intercalate [' '] ws

/-- The tail–head loop: largest `size ≤ limit` with the last `size` existing
tokens equal to the first `size` new tokens, scanning downward. -/
def tailHeadOverlap (e n : List (List Char)) : Nat → Nat
  | 0 => 0
  | size + 1 =>
    if joinWords (e.drop (e.length - (size + 1))) = joinWords (n.take (size + 1)) then
      size + 1
    else
      tailHeadOverlap e n size

/-- One floating-match comparison: `e.slice(start, start+size)` against
`n.slice(0, size)`. -/
def floatingMatchAt (e n : List (List Char)) (size start : Nat) : Bool :=
  joinWords ((e.drop start).take size) = joinWords (n.take size)

/-- The floating-match size loop, sizes from `maxSize` down to `4`; for each
size the start index ranges from `max(searchStart, |e| − size − 6)` to
`|e| − size`. -/
def floatingSizeLoop (e n : List (List Char)) (searchStart : Nat) : Nat → Nat
  | 0 => 0
  | size + 1 =>
    if size + 1 < 4 then 0
    else
      let latestStart := max searchStart (e.length - (size + 1) - 6)
      let endIdx := e.length - (size + 1)
      if (List.range' latestStart (endIdx + 1 - latestStart)).any
          (fun start => floatingMatchAt e n (size + 1) start) then
        size + 1
      else
        floatingSizeLoop e n searchStart size

/-- The floating match of `dedupeChunkAgainstLiveTranscript` (entered only when
the tail–head match yielded zero and the chunk has at least 4 words). -/
def floatingOverlap (e n : List (List Char)) : Nat :=
  let searchTailWords := min e.length 28
  let searchStart := e.length - searchTailWords
  let maxSize := min (min n.length 16) searchTailWords
  floatingSizeLoop e n searchStart maxSize

/-- The final step of `dedupeChunkAgainstLiveTranscript`: drop the first
`overlapWords` words (returning the chunk unchanged when the overlap is zero
and the empty string when everything is dropped), re-appending a trailing
space iff the original chunk ended in whitespace. -/
def dropOverlapWords (nextWords : List (List Char)) (overlapWords : Nat)
    (nextChunk : String) : String :=
  if overlapWords = 0 then nextChunk
  else
    let dedupedWords := nextWords.drop overlapWords
    if dedupedWords.length = 0 then ""
    else
      let needsTrailingWhitespace := endsInJsWhitespace nextChunk
      ⟨joinWords dedupedWords ++ (if needsTrailingWhitespace then [' '] else [])⟩

/-- `DingoFlowApp.dedupeChunkAgainstLiveTranscript`, with the live transcript
made an explicit first argument. -/
def dedupeChunkAgainstLiveTranscript (liveInjectedText nextChunk : String) : String :=
  if (jsTrimList nextChunk.toList).isEmpty || (jsTrimList liveInjectedText.toList).isEmpty then
    nextChunk
  else if nextChunk.toList.contains '\n' || liveInjectedText.toList.contains '\n' then
    nextChunk
  else
    let existingWords := splitWs (jsTrimList liveInjectedText.toList)
    let nextWords := splitWs (jsTrimList nextChunk.toList)
    if existingWords.length = 0 || nextWords.length = 0 then nextChunk
    else
      let existingNormalized := existingWords.map normalizeWord
      let nextNormalized := nextWords.map normalizeWord
      let overlapLimit := min (min existingWords.length nextWords.length) 20
      let tailOverlap := tailHeadOverlap existingNormalized nextNormalized overlapLimit
      let overlapWords :=
        if tailOverlap = 0 && 4 ≤ nextWords.length then
          floatingOverlap existingNormalized nextNormalized
        else tailOverlap
      dropOverlapWords nextWords overlapWords nextChunk

/-! ### Adaptive window scheduler and EWMA state (`DingoFlowApp`) -/

inductive AsrBackend where
  | whisperNative | fasterWhisper | parakeetNative | parakeetMlx
deriving Repr, DecidableEq

/-- `DingoFlowLatencyOptions` (the fields read by the embedded logic). -/
structure LatencyOptions where
  asrBackend : AsrBackend
  spokenFormattingCommands : Bool
  liveStreamChunkMs : ℚ
  minAsrWindowMs : ℚ
  normalAsrWindowMs : ℚ
  backlogAsrWindowMs : ℚ
  maxAsrWindowMs : ℚ
  adaptiveAsrWindow : Bool
  parakeetFinalPass : Bool
  silenceGateDbfs : ℚ
  speechHangoverMs : ℚ
deriving Repr, DecidableEq

/-- `clamp(value, min, max) = Math.max(min, Math.min(max, value))`. -/
def clamp (value minV maxV : ℚ) : ℚ := max minV (min maxV value)

/-- `msToBytes`: `Math.max(1, Math.floor(16000 * 2 * ms / 1000))`. -/
def msToBytes (ms : ℚ) : Nat := max 1 (Int.toNat ⌊16000 * 2 * ms / 1000⌋)

/-- `bytesToMs`: `(bytes / (2 * 16000)) * 1000`. -/
def bytesToMs (bytes : Nat) : ℚ := (bytes : ℚ) / (2 * 16000) * 1000

/-- The runtime latency-tuning scalars of `DingoFlowApp`. -/
structure AdaptiveState where
  dynamicNormalAsrWindowMs : ℚ
  ewmaAsrRtf : ℚ
  ewmaAsrMs : ℚ
deriving Repr, DecidableEq

/-- The adaptive-state reset performed by `startRecording`:
`dynamicNormalAsrWindowMs = normalAsrWindowMs`, `ewmaAsrRtf = 1.0`,
`ewmaAsrMs = normalAsrWindowMs`. -/
def startAdaptiveState (opts : LatencyOptions) : AdaptiveState :=
  ⟨opts.normalAsrWindowMs, 1.0, opts.normalAsrWindowMs⟩

/-- `DingoFlowApp.updateAdaptiveWindow`. -/
def updateAdaptiveWindow (opts : LatencyOptions) (st : AdaptiveState)
    (audioMs asrElapsedMs pendingMs : ℚ) : AdaptiveState :=
  let alpha : ℚ := 0.18
  let rtf := asrElapsedMs / max audioMs 1
  let newRtf := st.ewmaAsrRtf * (1 - alpha) + rtf * alpha
  let newMs := st.ewmaAsrMs * (1 - alpha) + asrElapsedMs * alpha
  if !opts.adaptiveAsrWindow then
    { st with ewmaAsrRtf := newRtf, ewmaAsrMs := newMs }
  else
    let next :=
      if opts.backlogAsrWindowMs ≤ pendingMs || (1.0 : ℚ) < newRtf then
        st.dynamicNormalAsrWindowMs + 24
      else if pendingMs ≤ opts.minAsrWindowMs && newRtf < (0.68 : ℚ) then
        st.dynamicNormalAsrWindowMs - 10
      else if pendingMs ≤ opts.normalAsrWindowMs / 2 && newRtf < (0.8 : ℚ) then
        st.dynamicNormalAsrWindowMs - 4
      else
        st.dynamicNormalAsrWindowMs
    { dynamicNormalAsrWindowMs := clamp next opts.minAsrWindowMs opts.maxAsrWindowMs
      ewmaAsrRtf := newRtf
      ewmaAsrMs := newMs }

/-- A sequence of `updateAdaptiveWindow` calls with inputs
`(audioMs, asrElapsedMs, pendingMs)`. -/
def runAdaptiveUpdates (opts : LatencyOptions) (st : AdaptiveState)
    (updates : List (ℚ × ℚ × ℚ)) : AdaptiveState :=
  updates.foldl (fun s u => updateAdaptiveWindow opts s u.1 u.2.1 u.2.2) st

/-! ### Speech gate (`DingoFlowApp.estimateDbfs`) -/

/-- `Buffer.readInt16LE` on two bytes. -/
def readInt16LE (lo hi : Nat) : Int :=
  let v := lo + 256 * hi
  if 32768 ≤ v then (v : Int) - 65536 else (v : Int)

/-- The accumulation loop of `estimateDbfs`: sum of squared normalized samples
and the sample count (a trailing odd byte is ignored, as in the source). -/
def sumSquaresCount : List Nat → ℚ × Nat
  | lo :: hi :: rest =>
    let sample : ℚ := (readInt16LE lo hi : ℚ) / 32768
    let acc := sumSquaresCount rest
    (sample * sample + acc.1, acc.2 + 1)
  | _ => (0, 0)

/-- Decides `10 ^ g ≤ q` exactly for rational `q > 0` and rational exponent
`g`, by raising both sides to the `g.den`-th power. -/
def tenPowLE (g q : ℚ) : Bool :=
  if 0 ≤ g.num then decide ((10 : ℚ) ^ g.num.toNat ≤ q ^ g.den)
  else decide ((1 : ℚ) ≤ q ^ g.den * (10 : ℚ) ^ (-g.num).toNat)

/-- The comparison `estimateDbfs(audio) >= gate` of `processAudioSlice`.
`estimateDbfs` returns −120 when the buffer has fewer than two bytes, no
samples, or zero RMS, and `20·log10(rms)` with `rms = √(ss/n)` otherwise; for
`ss/n > 0` the comparison `20·log10(√(ss/n)) ≥ g` is decided exactly as
`10^(g/10) ≤ ss/n`. -/
def estimateDbfsGE (audio : List Nat) (gate : ℚ) : Bool :=
  if audio.length < 2 then decide (gate ≤ -120)
  else
    let acc := sumSquaresCount audio
    if acc.2 = 0 then decide (gate ≤ -120)
    else if acc.1 ≤ 0 then decide (gate ≤ -120)
    else tenPowLE (gate / 10) (acc.1 / (acc.2 : ℚ))

/-! ### Session orchestrator (`DingoFlowApp`) -/

inductive Stage where
  | idle | recording | transcribing | formatting | injecting | error
deriving Repr, DecidableEq

structure AppState where
  stage : Stage
  detail : Option String
deriving Repr, DecidableEq

inductive AppEvent where
  | stateChanged (state : AppState)
  | dictationCompleted (rawTranscript formattedText : String)
deriving Repr, DecidableEq

/-- One latency sample pushed to the tracker. -/
structure LatencySample where
  queueMs : ℚ
  audioMs : ℚ
  asrMs : ℚ
  injectMs : ℚ
  endToEndMs : ℚ
deriving Repr, DecidableEq

/-- The session fields of `DingoFlowApp` touched by the embedded paths, plus
observable traces: emitted events, `inject` calls and `replaceRecentText`
calls, in call order. -/
structure SessionState where
  state : AppState
  recordingActive : Bool
  acceptingAudio : Bool
  asrRequestCount : Nat
  rawTranscriptParts : List String
  liveInjectedText : String
  sessionAudioChunks : List (List Nat)
  queue : AudioQueue
  adaptive : AdaptiveState
  speechHangoverUntilMs : ℚ
  latencySamples : List LatencySample
  injectorCalls : List String
  replaceCalls : List (String × String)
  events : List AppEvent
deriving Repr, DecidableEq

/-- `setState`: assign and emit `stateChanged`. -/
def setState (st : SessionState) (next : AppState) : SessionState :=
  { st with state := next, events := st.events ++ [.stateChanged next] }

/-- The state of a freshly constructed `DingoFlowApp`. -/
def initialSessionState (opts : LatencyOptions) : SessionState :=
  { state := ⟨.idle, none⟩
    recordingActive := false
    acceptingAudio := false
    asrRequestCount := 0
    rawTranscriptParts := []
    liveInjectedText := ""
    sessionAudioChunks := []
    queue := .empty
    adaptive := ⟨opts.normalAsrWindowMs, 1.0, 0⟩
    speechHangoverUntilMs := 0
    latencySamples := []
    injectorCalls := []
    replaceCalls := []
    events := [] }

/-- `startRecording` (the field resets and the final state transition; the
recorder and ASR stream starts are external effects). -/
def startRecording (opts : LatencyOptions) (st : SessionState) : SessionState :=
  let st1 := { st with
    recordingActive := true
    acceptingAudio := true
    asrRequestCount := 0
    rawTranscriptParts := []
    liveInjectedText := ""
    sessionAudioChunks := []
    queue := .empty
    adaptive := startAdaptiveState opts
    speechHangoverUntilMs := 0
    latencySamples := [] }
  setState st1 ⟨.recording, some "Live dictation (adaptive streaming)"⟩

/-- The recorder `onChunk` callback wired in `startRecording`, followed by
`enqueueAudioChunk`'s session-buffer and queue updates. -/
def onChunkArrival (st : SessionState) (chunk : List Nat) (nowMs : ℚ) : SessionState :=
  if !st.acceptingAudio || chunk.length = 0 then st
  else
    { st with
      sessionAudioChunks := st.sessionAudioChunks ++ [chunk]
      queue := enqueueAudioChunk st.queue chunk nowMs }

/-- A pending audio slice (`PendingAudioSlice`). -/
structure PendingSlice where
  data : List Nat
  oldestEnqueuedAtMs : ℚ
deriving Repr, DecidableEq

/-- `takeNextAudioSlice(forceFlush)`: the window-selection logic. -/
def takeNextAudioSlice (opts : LatencyOptions) (st : SessionState) (forceFlush : Bool)
    (nowMs : ℚ) : Option PendingSlice × SessionState :=
  let pending := st.queue.pendingBytes
  if pending = 0 then (none, st)
  else if !forceFlush && pending < msToBytes opts.minAsrWindowMs then (none, st)
  else
    let pendingMs := bytesToMs pending
    let target0 :=
      if opts.adaptiveAsrWindow then st.adaptive.dynamicNormalAsrWindowMs
      else opts.normalAsrWindowMs
    let target1 :=
      if opts.backlogAsrWindowMs * 2 ≤ pendingMs then opts.maxAsrWindowMs
      else if opts.backlogAsrWindowMs ≤ pendingMs then max target0 opts.backlogAsrWindowMs
      else target0
    let targetMs := clamp target1 opts.minAsrWindowMs opts.maxAsrWindowMs
    let takeBytes := if forceFlush then pending else min pending (msToBytes targetMs)
    if takeBytes = 0 then (none, st)
    else
      let res := readPendingAudioSlice st.queue takeBytes nowMs
      match res.1 with
      | none => (none, { st with queue := res.2 })
      | some (bytes, oldest) => (some ⟨bytes, oldest⟩, { st with queue := res.2 })

/-- The `Date.now()` readings taken during one `processAudioSlice` call, made
explicit: entry time, gate time, and the elapsed spans measured by the source. -/
structure SliceClock where
  now0 : ℚ
  nowMs : ℚ
  asrElapsedMs : ℚ
  injectElapsedMs : ℚ
  endNow : ℚ
deriving Repr, DecidableEq

/-- The transcript-text chain of `processAudioSlice`: trim, spoken-punctuation
rewrite, live-chunk normalisation, overlap dedup against the live transcript.
`none` models the early returns on an empty intermediate result. -/
def liveChunkPipeline (spokenCmds : Bool) (liveInjectedText text : String) :
    Option String :=
  let rawChunk := jsTrim text
  if rawChunk.isEmpty then none
  else
    let commandResult := if spokenCmds then transform rawChunk else ⟨rawChunk, 0⟩
    if commandResult.text.isEmpty then none
    else
      let normalizedChunk := normalizeLiveChunkOutput commandResult.text
      if normalizedChunk.isEmpty then none
      else
        let dedupedChunk := dedupeChunkAgainstLiveTranscript liveInjectedText normalizedChunk
        if dedupedChunk.isEmpty then none
        else some dedupedChunk

/-- `DingoFlowApp.processAudioSlice`.  `asrResult = none` models a failed
`pushStream`/`transcribe` call (the `.catch` producing `undefined`). -/
def processAudioSlice (opts : LatencyOptions) (st : SessionState) (slice : PendingSlice)
    (clock : SliceClock) (asrResult : Option String) : SessionState :=
  let queueDelayMs := max 0 (clock.now0 - slice.oldestEnqueuedAtMs)
  let audioMs := bytesToMs slice.data.length
  let hasSpeechEnergy := estimateDbfsGE slice.data opts.silenceGateDbfs
  if !hasSpeechEnergy && st.speechHangoverUntilMs < clock.nowMs then st
  else
    let st1 :=
      if hasSpeechEnergy then
        { st with speechHangoverUntilMs := clock.nowMs + opts.speechHangoverMs }
      else st
    let st2 := { st1 with
      adaptive := updateAdaptiveWindow opts st1.adaptive audioMs clock.asrElapsedMs
        (bytesToMs st1.queue.pendingBytes) }
    match asrResult with
    | none => st2
    | some text =>
      match liveChunkPipeline opts.spokenFormattingCommands st2.liveInjectedText text with
      | none => st2
      | some dedupedChunk =>
        { st2 with
          rawTranscriptParts := st2.rawTranscriptParts ++ [dedupedChunk]
          liveInjectedText := st2.liveInjectedText ++ dedupedChunk
          injectorCalls := st2.injectorCalls ++ [dedupedChunk]
          latencySamples := st2.latencySamples ++
            [⟨queueDelayMs, audioMs, clock.asrElapsedMs, clock.injectElapsedMs,
              max 0 (clock.endNow - slice.oldestEnqueuedAtMs)⟩] }

/-- The per-iteration external inputs of the ASR loop: the clock readings and
the ASR call outcome. -/
structure SliceInputs where
  takeNow : ℚ
  clock : SliceClock
  asrResult : Option String
deriving Repr, DecidableEq

def defaultSliceInputs : SliceInputs := ⟨0, ⟨0, 0, 0, 0, 0⟩, none⟩

/-- `runAsrLoop`: repeatedly take a slice (`forceFlush` when the session is no
longer recording) and process it; stop when the scheduler returns nothing. -/
def runAsrLoop (opts : LatencyOptions) : Nat → SessionState → List SliceInputs → SessionState
  | 0, st, _ => st
  | fuel + 1, st, inputs =>
    let inp := inputs.headD defaultSliceInputs
    let res := takeNextAudioSlice opts st (!st.recordingActive) inp.takeNow
    match res.1 with
    | none => res.2
    | some slice =>
      let st1 := { res.2 with asrRequestCount := res.2.asrRequestCount + 1 }
      runAsrLoop opts fuel (processAudioSlice opts st1 slice inp.clock inp.asrResult) inputs.tail

/-- The tail-text chain of `processStreamFlush`: trim, spoken-punctuation
rewrite and live-chunk normalisation — with no dedup step.  `none` models the
early returns on an empty intermediate result. -/
def flushTailPipeline (spokenCmds : Bool) (text : String) : Option String :=
  if (jsTrim text).isEmpty then none
  else
    let tailText := jsTrim text
    let tailCommandResult := if spokenCmds then transform tailText else ⟨tailText, 0⟩
    if tailCommandResult.text.isEmpty then none
    else
      let normalizedTail := normalizeLiveChunkOutput tailCommandResult.text
      if normalizedTail.isEmpty then none
      else some normalizedTail

/-- `DingoFlowApp.processStreamFlush`.  `flushResult = none` models a backend
without `flushStream` or a failed flush (both return without effect). -/
def processStreamFlush (opts : LatencyOptions) (st : SessionState)
    (flushResult : Option String) : SessionState :=
  if opts.asrBackend = AsrBackend.parakeetNative then st
  else
    match flushResult with
    | none => st
    | some text =>
      match flushTailPipeline opts.spokenFormattingCommands text with
      | none => st
      | some normalizedTail =>
        { st with
          rawTranscriptParts := st.rawTranscriptParts ++ [normalizedTail]
          liveInjectedText := st.liveInjectedText ++ normalizedTail
          injectorCalls := st.injectorCalls ++ [normalizedTail] }

/-- `replace(/[ \t]+\n/g, '\n')`: drop horizontal whitespace before newlines. -/
def stripBlanksBeforeNewline : Nat → List Char → List Char
  | 0, s => s
  | _ + 1, [] => []
  | fuel + 1, c :: rest =>
    if isBlankChar c then
      let s := c :: rest
      let after := s.dropWhile isBlankChar
      match after with
      | '\n' :: tail => '\n' :: stripBlanksBeforeNewline fuel tail
      | _ => s.takeWhile isBlankChar ++ stripBlanksBeforeNewline fuel after
    else
      c :: stripBlanksBeforeNewline fuel rest

/-- The `rawTranscript` normalisation of `stopAndProcess`:
`join('')`, the three regex passes, then `trim()`. -/
def normalizeRawTranscript (parts : List String) : String :=
  let joined := (parts.map String.toList).flatten
  let a := stripBlanksBeforeNewline (joined.length + 1) joined
  let b := collapseNewlineRuns (a.length + 1) a
  let c := collapseBlankRuns (b.length + 1) b
  ⟨jsTrimList c⟩

/-- JS `trimEnd()`. -/
def jsTrimEnd (s : String) : String := ⟨(s.toList.reverse.dropWhile isJsSpace).reverse⟩

/-- Outcomes of the collaborator calls made during `stopAndProcess`
(`none` models the corresponding `.catch` path). -/
structure StopCollaborators where
  flushResult : Option String
  finalPassResult : Option String
  formatterResult : Option String
  injectorHasReplace : Bool
deriving Repr, DecidableEq

/-- `stopAndProcess` after the drain and flush: transcript normalisation,
optional final Parakeet pass, the empty-transcript early return, formatting,
correction injection and the `dictationCompleted` event. -/
def stopAndProcessAfterDrain (opts : LatencyOptions) (st : SessionState)
    (collab : StopCollaborators) : SessionState :=
  let rawTranscript0 := normalizeRawTranscript st.rawTranscriptParts
  let finalStage :=
    if opts.asrBackend = AsrBackend.parakeetNative && opts.parakeetFinalPass &&
        decide (st.sessionAudioChunks ≠ []) then
      let st5 := setState st ⟨.transcribing, some "Final native Parakeet pass"⟩
      match collab.finalPassResult with
      | none => (st5, rawTranscript0)
      | some text =>
        let finalRawTranscript := jsTrim text
        if finalRawTranscript.isEmpty then (st5, rawTranscript0)
        else if finalRawTranscript ≠ rawTranscript0 && collab.injectorHasReplace then
          let st6 := setState st5 ⟨.injecting, some "Applying final ASR correction"⟩
          let st7 := { st6 with
            replaceCalls := st6.replaceCalls ++ [(jsTrimEnd st6.liveInjectedText, finalRawTranscript)]
            liveInjectedText := finalRawTranscript ++ " " }
          (st7, finalRawTranscript)
        else (st5, finalRawTranscript)
    else (st, rawTranscript0)
  let stA := finalStage.1
  let rawTranscript := finalStage.2
  if rawTranscript.isEmpty then
    setState stA ⟨.idle, some "No speech detected"⟩
  else
    let stB := setState stA ⟨.formatting, some "Final formatting pass"⟩
    let formattedText :=
      match collab.formatterResult with
      | some t => t
      | none => rawTranscript
    let finalText := if (jsTrim formattedText).isEmpty then rawTranscript else jsTrim formattedText
    let stC :=
      if finalText ≠ rawTranscript && collab.injectorHasReplace then
        let s := setState stB ⟨.injecting, some "Applying formatted correction"⟩
        { s with replaceCalls := s.replaceCalls ++ [(jsTrimEnd s.liveInjectedText, finalText)] }
      else stB
    let stD := { stC with events := stC.events ++ [.dictationCompleted rawTranscript finalText] }
    setState stD ⟨.idle, none⟩

/-- The `finally` block of `stopAndProcess`: reset the session buffers. -/
def stopFinally (st : SessionState) : SessionState :=
  { st with
    acceptingAudio := false
    recordingActive := false
    asrRequestCount := 0
    rawTranscriptParts := []
    liveInjectedText := ""
    queue := .empty
    sessionAudioChunks := []
    latencySamples := [] }

/-- `DingoFlowApp.stopAndProcess`: stop accepting audio, drain the ASR loop
with force-flush, flush the stream, and finish; `drainFuel` bounds the loop
iterations and `sliceInputs` supplies the per-iteration clock readings and ASR
outcomes. -/
def stopAndProcess (opts : LatencyOptions) (st : SessionState) (drainFuel : Nat)
    (sliceInputs : List SliceInputs) (collab : StopCollaborators) : SessionState :=
  let st1 := { st with recordingActive := false, acceptingAudio := false }
  let st2 := setState st1 ⟨.transcribing, some "Draining audio queue"⟩
  let st3 := runAsrLoop opts drainFuel st2 sliceInputs
  let st4 := processStreamFlush opts st3 collab.flushResult
  stopFinally (stopAndProcessAfterDrain opts st4 collab)

/-! ### Capture backends: chunk-duration range checks -/

inductive RecorderStartCheck where
  | ok | alreadyActive | chunkRangeError
deriving Repr, DecidableEq

/-- The argument validation of `FfmpegRecorder.startStreaming`: reject when a
process is active, then reject `chunkDurationMs` outside `[40, 2000]`. -/
def ffmpegStartStreamingCheck (processActive : Bool) (chunkDurationMs : ℚ) :
    RecorderStartCheck :=
  if processActive then .alreadyActive
  else if chunkDurationMs < 40 || 2000 < chunkDurationMs then .chunkRangeError
  else .ok

/-- The argument validation of `RustNativeRecorder.startStreaming`: reject when
a process is active, then reject `chunkDurationMs` outside `[20, 2000]`. -/
def rustNativeStartStreamingCheck (processActive : Bool) (chunkDurationMs : ℚ) :
    RecorderStartCheck :=
  if processActive then .alreadyActive
  else if chunkDurationMs < 20 || 2000 < chunkDurationMs then .chunkRangeError
  else .ok

/-- `validateConfig`: the `liveStreamChunkMs` bound (an error outside `[20, 600]`). -/
def liveStreamChunkMsConfigError (v : ℚ) : Bool := v < 20 || 600 < v

/-! ### Concrete scenarios -/

/-- Whether a `dictationCompleted` event occurs in an event trace. -/
def hasDictationCompleted (events : List AppEvent) : Bool :=
  events.any fun e =>
    match e with
    | .dictationCompleted _ _ => true
    | _ => false

/-- The balanced-preset options of the terminal runner with the default
backend `parakeet-native`, `silence_gate_dbfs = -52` and final pass disabled. -/
def silentScenarioOptions : LatencyOptions :=
  { asrBackend := .parakeetNative
    spokenFormattingCommands := true
    liveStreamChunkMs := 120
    minAsrWindowMs := 90
    normalAsrWindowMs := 180
    backlogAsrWindowMs := 360
    maxAsrWindowMs := 640
    adaptiveAsrWindow := true
    parakeetFinalPass := false
    silenceGateDbfs := -52
    speechHangoverMs := 420 }

/-- 100 ms of all-zero 16 kHz 16-bit PCM: 3200 zero bytes. -/
def silentChunk : List Nat := List.replicate 3200 0

/-- The trivial-flush scenario: start recording, receive the 100 ms silent
chunk, release.  Clock readings are explicit; the ASR outcome inputs are
irrelevant because the speech gate discards the slice before any ASR call. -/
def silentSessionRun : SessionState :=
  let st0 := startRecording silentScenarioOptions (initialSessionState silentScenarioOptions)
  let st1 := onChunkArrival st0 silentChunk 0
  stopAndProcess silentScenarioOptions st1 4
    [⟨1, ⟨1, 1, 0, 0, 1⟩, none⟩, ⟨2, ⟨2, 2, 0, 0, 2⟩, none⟩]
    ⟨none, none, none, false⟩

/-- A flush scenario for a stateful non-Parakeet backend: the live transcript
already ends with "world". -/
def flushScenarioOptions : LatencyOptions :=
  { silentScenarioOptions with asrBackend := .fasterWhisper }

def flushScenarioState : SessionState :=
  { initialSessionState flushScenarioOptions with
      liveInjectedText := "hello world "
      rawTranscriptParts := ["hello world "] }

/-- A slice arriving inside the speech hangover window (`hangover 10 > now 5`),
whose ASR call fails. -/
def gateHangoverState : SessionState :=
  { initialSessionState silentScenarioOptions with speechHangoverUntilMs := 10 }

def gateHangoverClock : SliceClock := ⟨3, 5, 7, 1, 12⟩

def gateHangoverSlice : PendingSlice := ⟨[0, 0], 0⟩

/-! ## Theorems -/

/-! ### The ingestion queue (C4, C5) -/

theorem queueContent_cons (c : QueuedChunk) (rest : List QueuedChunk) :
    queueContent (c :: rest) = c.data.drop c.off ++ queueContent rest := by
  simp [queueContent]

/-- The drain loop conserves bytes: the copied bytes followed by the remaining
queue content are exactly the original queue content. -/
theorem drainChunks_content :
    ∀ (chunks : List QueuedChunk) (need : Nat) (oldest : ℚ),
      (drainChunks chunks need oldest).1 ++
          queueContent (drainChunks chunks need oldest).2.1 =
        queueContent chunks
  | [], need, oldest => by simp [drainChunks, queueContent]
  | c :: rest, need, oldest => by
    by_cases h0 : need = 0
    · simp [drainChunks, h0]
    · by_cases hfull : c.data.length ≤ c.off + min (c.data.length - c.off) need
      · have hlen : (c.data.drop c.off).length ≤ min (c.data.length - c.off) need := by
          have := List.length_drop c.off c.data
          omega
        have htake : (c.data.drop c.off).take (min (c.data.length - c.off) need) =
            c.data.drop c.off := List.take_of_length_le hlen
        have ih := drainChunks_content rest (need - min (c.data.length - c.off) need)
          (min oldest c.enqueuedAtMs)
        simp only [drainChunks, if_neg h0, if_pos hfull, queueContent_cons, htake]
        rw [List.append_assoc, ih]
      · have hdd : c.data.drop (c.off + min (c.data.length - c.off) need) =
            (c.data.drop c.off).drop (min (c.data.length - c.off) need) := by
          rw [List.drop_drop]
        simp only [drainChunks, if_neg h0, if_neg hfull, queueContent_cons, hdd]
        rw [← List.append_assoc, List.take_append_drop]

theorem queueContent_enqueue (q : AudioQueue) (chunk : List Nat) (nowMs : ℚ) :
    queueContent (enqueueAudioChunk q chunk nowMs).chunks =
      queueContent q.chunks ++ chunk := by
  simp [enqueueAudioChunk, queueContent]

/-- Running any operation sequence conserves bytes: everything taken so far,
followed by what is still queued, is exactly everything enqueued so far. -/
theorem runQueueOps_content :
    ∀ (ops : List QueueOp) (q : AudioQueue),
      (runQueueOps q ops).2.flatten ++ queueContent (runQueueOps q ops).1.chunks =
        queueContent q.chunks ++ enqueuedBytes ops
  | [], q => by simp [runQueueOps, enqueuedBytes]
  | .enq chunk nowMs :: rest, q => by
    have ih := runQueueOps_content rest (enqueueAudioChunk q chunk nowMs)
    simp only [runQueueOps, applyQueueOp, enqueuedBytes, List.nil_append]
    rw [ih, queueContent_enqueue, List.append_assoc]
  | .take byteCount nowMs :: rest, q => by
    by_cases h : byteCount = 0 ∨ q.pendingBytes < byteCount
    · have ih := runQueueOps_content rest q
      simp only [runQueueOps, applyQueueOp, readPendingAudioSlice, if_pos h,
        enqueuedBytes, Option.map_none, Option.toList_none, List.nil_append]
      exact ih
    · have hdrain := drainChunks_content q.chunks byteCount nowMs
      have ih := runQueueOps_content rest
        ⟨(drainChunks q.chunks byteCount nowMs).2.1,
          q.pendingBytes - (drainChunks q.chunks byteCount nowMs).1.length⟩
      simp only [runQueueOps, applyQueueOp, readPendingAudioSlice, if_neg h,
        enqueuedBytes, Option.map_some', Option.toList_some]
      simp only [List.singleton_append, List.flatten_cons, List.append_assoc] at ih ⊢
      rw [ih]
      rw [← List.append_assoc, hdrain]

/-- C4 — every sequence of enqueue/take operations returns bytes in FIFO order
without duplication: the concatenation of all taken bytes is a prefix of the
concatenation of all enqueued bytes. -/
theorem takenBytes_is_enqueued_prefix (ops : List QueueOp) :
    ∃ rest, (runQueueOps AudioQueue.empty ops).2.flatten ++ rest = enqueuedBytes ops := by
  refine ⟨queueContent (runQueueOps AudioQueue.empty ops).1.chunks, ?_⟩
  have h := runQueueOps_content ops AudioQueue.empty
  simpa [AudioQueue.empty, queueContent] using h

theorem drainChunks_length_le (chunks : List QueuedChunk) (need : Nat) (oldest : ℚ) :
    (drainChunks chunks need oldest).1.length ≤ (queueContent chunks).length := by
  have h := drainChunks_content chunks need oldest
  have := congrArg List.length h
  simp only [List.length_append] at this
  omega

/-- The pending-byte counter tracks the length of the queue content across any
operation sequence. -/
theorem runQueueOps_pendingBytes :
    ∀ (ops : List QueueOp) (q : AudioQueue),
      q.pendingBytes = (queueContent q.chunks).length →
      (runQueueOps q ops).1.pendingBytes =
        (queueContent (runQueueOps q ops).1.chunks).length
  | [], q, hq => by simpa [runQueueOps] using hq
  | .enq chunk nowMs :: rest, q, hq => by
    have ih := runQueueOps_pendingBytes rest (enqueueAudioChunk q chunk nowMs) ?_
    · simpa [runQueueOps, applyQueueOp] using ih
    · rw [queueContent_enqueue]
      simp [enqueueAudioChunk, hq]
  | .take byteCount nowMs :: rest, q, hq => by
    by_cases h : byteCount = 0 ∨ q.pendingBytes < byteCount
    · have ih := runQueueOps_pendingBytes rest q hq
      simpa [runQueueOps, applyQueueOp, readPendingAudioSlice, if_pos h] using ih
    · have hdrain := drainChunks_content q.chunks byteCount nowMs
      have hlen := congrArg List.length hdrain
      simp only [List.length_append] at hlen
      have ih := runQueueOps_pendingBytes rest
        ⟨(drainChunks q.chunks byteCount nowMs).2.1,
          q.pendingBytes - (drainChunks q.chunks byteCount nowMs).1.length⟩ ?_
      · simpa [runQueueOps, applyQueueOp, readPendingAudioSlice, if_neg h] using ih
      · simp only
        omega

theorem queueContent_length (chunks : List QueuedChunk) :
    (queueContent chunks).length = (chunks.map fun c => c.data.length - c.off).sum := by
  induction chunks with
  | nil => simp [queueContent]
  | cons c rest ih => simp [queueContent_cons, List.length_append, ih, List.length_drop]

/-- C5 — at every step of any enqueue/take sequence, the pending-byte counter
equals the sum over queued chunks of `length − read offset`. -/
theorem pendingBytes_eq_sum_chunk_remainders (ops : List QueueOp) :
    (runQueueOps AudioQueue.empty ops).1.pendingBytes =
      ((runQueueOps AudioQueue.empty ops).1.chunks.map
        fun c => c.data.length - c.off).sum := by
  have h := runQueueOps_pendingBytes ops AudioQueue.empty
    (by simp [AudioQueue.empty, queueContent])
  rw [h, queueContent_length]

/-! ### The adaptive window (C6) -/

theorem clamp_bounds (v minV maxV : ℚ) (h : minV ≤ maxV) :
    minV ≤ clamp v minV maxV ∧ clamp v minV maxV ≤ maxV :=
  ⟨le_max_left _ _, max_le h (min_le_left _ _)⟩

theorem updateAdaptiveWindow_dyn_bounds (opts : LatencyOptions) (st : AdaptiveState)
    (a e p : ℚ) (hm : opts.minAsrWindowMs ≤ opts.maxAsrWindowMs)
    (hlo : opts.minAsrWindowMs ≤ st.dynamicNormalAsrWindowMs)
    (hhi : st.dynamicNormalAsrWindowMs ≤ opts.maxAsrWindowMs) :
    opts.minAsrWindowMs ≤ (updateAdaptiveWindow opts st a e p).dynamicNormalAsrWindowMs ∧
      (updateAdaptiveWindow opts st a e p).dynamicNormalAsrWindowMs ≤ opts.maxAsrWindowMs := by
  unfold updateAdaptiveWindow
  by_cases h : opts.adaptiveAsrWindow
  · simp only [h, Bool.not_true, Bool.false_eq_true, if_false]
    exact clamp_bounds _ _ _ hm
  · simp only [Bool.not_eq_true] at h
    simp only [h, Bool.not_false, if_true]
    exact ⟨hlo, hhi⟩

theorem runAdaptiveUpdates_dyn_bounds (opts : LatencyOptions) :
    ∀ (updates : List (ℚ × ℚ × ℚ)) (st : AdaptiveState),
      opts.minAsrWindowMs ≤ opts.maxAsrWindowMs →
      opts.minAsrWindowMs ≤ st.dynamicNormalAsrWindowMs →
      st.dynamicNormalAsrWindowMs ≤ opts.maxAsrWindowMs →
      opts.minAsrWindowMs ≤ (runAdaptiveUpdates opts st updates).dynamicNormalAsrWindowMs ∧
        (runAdaptiveUpdates opts st updates).dynamicNormalAsrWindowMs ≤ opts.maxAsrWindowMs
  | [], st, _, hlo, hhi => ⟨hlo, hhi⟩
  | u :: rest, st, hm, hlo, hhi => by
    have hstep := updateAdaptiveWindow_dyn_bounds opts st u.1 u.2.1 u.2.2 hm hlo hhi
    have ih := runAdaptiveUpdates_dyn_bounds opts rest
      (updateAdaptiveWindow opts st u.1 u.2.1 u.2.2) hm hstep.1 hstep.2
    simpa [runAdaptiveUpdates] using ih

/-- C6 — with `min ≤ normal ≤ max`, the dynamic adaptive window stays within
`[min, max]` after initialisation and after every sequence of updates with
arbitrary inputs. -/
theorem dynamic_window_stays_in_bounds (opts : LatencyOptions)
    (updates : List (ℚ × ℚ × ℚ))
    (h1 : opts.minAsrWindowMs ≤ opts.normalAsrWindowMs)
    (h2 : opts.normalAsrWindowMs ≤ opts.maxAsrWindowMs) :
    (opts.minAsrWindowMs ≤ (startAdaptiveState opts).dynamicNormalAsrWindowMs ∧
      (startAdaptiveState opts).dynamicNormalAsrWindowMs ≤ opts.maxAsrWindowMs) ∧
    opts.minAsrWindowMs ≤
        (runAdaptiveUpdates opts (startAdaptiveState opts) updates).dynamicNormalAsrWindowMs ∧
      (runAdaptiveUpdates opts (startAdaptiveState opts) updates).dynamicNormalAsrWindowMs ≤
        opts.maxAsrWindowMs := by
  refine ⟨⟨h1, h2⟩, ?_⟩
  exact runAdaptiveUpdates_dyn_bounds opts updates (startAdaptiveState opts)
    (le_trans h1 h2) h1 h2

/-- Witness for C6: the balanced-preset windows 90/180/640 with two arbitrary
updates. -/
theorem dynamic_window_stays_in_bounds_witness :
    (90 : ℚ) ≤ 180 ∧ (180 : ℚ) ≤ 640 ∧
      ((90 : ℚ) ≤ (runAdaptiveUpdates silentScenarioOptions
          (startAdaptiveState silentScenarioOptions)
          [(100, 200, 0), (50, 10, 400)]).dynamicNormalAsrWindowMs ∧
        (runAdaptiveUpdates silentScenarioOptions
          (startAdaptiveState silentScenarioOptions)
          [(100, 200, 0), (50, 10, 400)]).dynamicNormalAsrWindowMs ≤ 640) :=
  ⟨by norm_num, by norm_num,
    (dynamic_window_stays_in_bounds silentScenarioOptions [(100, 200, 0), (50, 10, 400)]
      (by norm_num [silentScenarioOptions]) (by norm_num [silentScenarioOptions])).2⟩

/-! ### Whitespace termination of injected chunks (C10) -/

theorem endsInJsWhitespace_mk_space (l : List Char) :
    endsInJsWhitespace ⟨l ++ [' ']⟩ = true := by
  simp [endsInJsWhitespace, lastIsJsSpace, List.getLast?_concat, isJsSpace]

theorem normalizeLiveChunkOutput_trailing (s : String) :
    normalizeLiveChunkOutput s = "" ∨
      endsInJsWhitespace (normalizeLiveChunkOutput s) = true := by
  unfold normalizeLiveChunkOutput
  dsimp only
  split
  · exact Or.inl rfl
  · split
    · next hlast =>
      right
      simpa [endsInJsWhitespace] using hlast
    · right
      exact endsInJsWhitespace_mk_space _

theorem dropOverlapWords_trailing (nw : List (List Char)) (ow : Nat) (c : String)
    (hc : endsInJsWhitespace c = true) :
    dropOverlapWords nw ow c = c ∨ dropOverlapWords nw ow c = "" ∨
      endsInJsWhitespace (dropOverlapWords nw ow c) = true := by
  unfold dropOverlapWords
  dsimp only
  split
  · exact Or.inl rfl
  · split
    · exact Or.inr (Or.inl rfl)
    · exact Or.inr (Or.inr (endsInJsWhitespace_mk_space _))

theorem dedupe_preserves_trailing (e c : String) (hc : endsInJsWhitespace c = true) :
    dedupeChunkAgainstLiveTranscript e c = "" ∨
      endsInJsWhitespace (dedupeChunkAgainstLiveTranscript e c) = true := by
  unfold dedupeChunkAgainstLiveTranscript
  dsimp only
  split
  · exact Or.inr hc
  · split
    · exact Or.inr hc
    · split
      · exact Or.inr hc
      · rcases dropOverlapWords_trailing _ _ _ hc with h | h | h
        · rw [h]; exact Or.inr hc
        · rw [h]; exact Or.inl rfl
        · exact Or.inr h

theorem liveChunkPipeline_some (spokenCmds : Bool) (live text t : String)
    (h : liveChunkPipeline spokenCmds live text = some t) :
    t.isEmpty = false ∧ endsInJsWhitespace t = true := by
  unfold liveChunkPipeline at h
  dsimp only at h
  split at h
  · exact absurd h (by simp)
  · rcases hcmd : (if spokenCmds then transform (jsTrim text)
        else ⟨jsTrim text, 0⟩ : SpokenFormattingResult) with ⟨cmdText, cmdCount⟩
    rw [hcmd] at h
    dsimp only at h
    split at h
    · exact absurd h (by simp)
    · split at h
      · exact absurd h (by simp)
      · next hnormne =>
        split at h
        · exact absurd h (by simp)
        · next hdedne =>
          cases h
          refine ⟨by simpa using hdedne, ?_⟩
          rcases normalizeLiveChunkOutput_trailing cmdText with hn | hn
          · rw [hn] at hnormne
            exact absurd (by decide) hnormne
          · rcases dedupe_preserves_trailing live _ hn with hd | hd
            · rw [hd] at hdedne
              exact absurd (by decide) hdedne
            · exact hd

theorem flushTailPipeline_some (spokenCmds : Bool) (text t : String)
    (h : flushTailPipeline spokenCmds text = some t) :
    t.isEmpty = false ∧ endsInJsWhitespace t = true := by
  unfold flushTailPipeline at h
  dsimp only at h
  split at h
  · exact absurd h (by simp)
  · rcases hcmd : (if spokenCmds then transform (jsTrim text)
        else ⟨jsTrim text, 0⟩ : SpokenFormattingResult) with ⟨cmdText, cmdCount⟩
    rw [hcmd] at h
    dsimp only at h
    split at h
    · exact absurd h (by simp)
    · split at h
      · exact absurd h (by simp)
      · next hnormne =>
        cases h
        refine ⟨by simpa using hnormne, ?_⟩
        rcases normalizeLiveChunkOutput_trailing cmdText with hn | hn
        · rw [hn] at hnormne
          exact absurd (by decide) hnormne
        · exact hn

theorem processAudioSlice_injection (opts : LatencyOptions) (st : SessionState)
    (slice : PendingSlice) (clock : SliceClock) (asrResult : Option String) :
    (processAudioSlice opts st slice clock asrResult).injectorCalls = st.injectorCalls ∨
    ∃ t, (processAudioSlice opts st slice clock asrResult).injectorCalls =
        st.injectorCalls ++ [t] ∧ t.isEmpty = false ∧ endsInJsWhitespace t = true := by
  unfold processAudioSlice
  dsimp only
  split
  · left; rfl
  · split
    · left
      by_cases hg : estimateDbfsGE slice.data opts.silenceGateDbfs = true <;> simp [hg]
    · split
      · left
        by_cases hg : estimateDbfsGE slice.data opts.silenceGateDbfs = true <;> simp [hg]
      · next t hpipe =>
        right
        refine ⟨t, ?_, liveChunkPipeline_some _ _ _ _ hpipe⟩
        by_cases hg : estimateDbfsGE slice.data opts.silenceGateDbfs = true <;> simp [hg]

theorem processStreamFlush_injection (opts : LatencyOptions) (st : SessionState)
    (flushResult : Option String) :
    (processStreamFlush opts st flushResult).injectorCalls = st.injectorCalls ∨
    ∃ t, (processStreamFlush opts st flushResult).injectorCalls =
        st.injectorCalls ++ [t] ∧ t.isEmpty = false ∧ endsInJsWhitespace t = true := by
  unfold processStreamFlush
  split
  · left; rfl
  · split
    · left; rfl
    · split
      · left; rfl
      · next t hpipe =>
        right
        exact ⟨t, rfl, flushTailPipeline_some _ _ _ hpipe⟩

/-- C10 — every text chunk handed to the injector by the live-slice path or by
the stream-flush path is non-empty and ends in a whitespace character: each
call appends at most one chunk, and any appended chunk is whitespace-
terminated. -/
theorem injected_chunks_end_in_whitespace :
    (∀ (opts : LatencyOptions) (st : SessionState) (slice : PendingSlice)
      (clock : SliceClock) (asrResult : Option String),
      (processAudioSlice opts st slice clock asrResult).injectorCalls = st.injectorCalls ∨
      ∃ t, (processAudioSlice opts st slice clock asrResult).injectorCalls =
          st.injectorCalls ++ [t] ∧ t.isEmpty = false ∧ endsInJsWhitespace t = true) ∧
    (∀ (opts : LatencyOptions) (st : SessionState) (flushResult : Option String),
      (processStreamFlush opts st flushResult).injectorCalls = st.injectorCalls ∨
      ∃ t, (processStreamFlush opts st flushResult).injectorCalls =
          st.injectorCalls ++ [t] ∧ t.isEmpty = false ∧ endsInJsWhitespace t = true) :=
  ⟨processAudioSlice_injection, processStreamFlush_injection⟩

/-! ### Speech gate and silent slices (C3, C7 groundwork) -/

theorem sumSquaresCount_zeros :
    ∀ k, sumSquaresCount (List.replicate (2 * k) 0) = (0, k) := by
  intro k
  induction k with
  | zero => rfl
  | succ n ih =>
    have h2 : 2 * (n + 1) = (2 * n) + 1 + 1 := by ring
    rw [h2, List.replicate_succ, List.replicate_succ, sumSquaresCount, ih]
    norm_num [readInt16LE]

theorem estimateDbfsGE_silentChunk (gate : ℚ) :
    estimateDbfsGE silentChunk gate = decide (gate ≤ -120) := by
  have h : silentChunk = List.replicate (2 * 1600) 0 := by norm_num [silentChunk]
  rw [h]
  unfold estimateDbfsGE
  rw [sumSquaresCount_zeros 1600]
  norm_num

theorem silentChunk_length : silentChunk.length = 3200 := by
  unfold silentChunk
  exact List.length_replicate 3200 0

theorem processAudioSlice_gate_skip (opts : LatencyOptions) (st : SessionState)
    (slice : PendingSlice) (clock : SliceClock) (asrResult : Option String)
    (hgate : estimateDbfsGE slice.data opts.silenceGateDbfs = false)
    (hh : st.speechHangoverUntilMs < clock.nowMs) :
    processAudioSlice opts st slice clock asrResult = st := by
  unfold processAudioSlice
  dsimp only
  rw [if_pos]
  simp [hgate, hh]

/-! ### The trivial-flush scenario (C3) -/

/-- Full evaluation of a release after a single sub-gate 100 ms chunk. -/
theorem silent_release_eval (chunk : List Nat)
    (hlen : chunk.length = 3200)
    (hgate : estimateDbfsGE chunk (-52) = false) :
    stopAndProcess silentScenarioOptions
      (onChunkArrival
        (startRecording silentScenarioOptions (initialSessionState silentScenarioOptions))
        chunk 0) 4
      [⟨1, ⟨1, 1, 0, 0, 1⟩, none⟩, ⟨2, ⟨2, 2, 0, 0, 2⟩, none⟩]
      ⟨none, none, none, false⟩ =
    ⟨⟨.idle, some "No speech detected"⟩, false, false, 0, [], "", [],
      ⟨[], 0⟩, ⟨180, 1, 180⟩, 0, [], [], [],
      [.stateChanged ⟨.recording, some "Live dictation (adaptive streaming)"⟩,
       .stateChanged ⟨.transcribing, some "Draining audio queue"⟩,
       .stateChanged ⟨.idle, some "No speech detected"⟩]⟩ := by
  have hmin : min (1 : ℚ) 0 = 0 := by norm_num [min_def]
  have htakechunk : chunk.take 3200 = chunk := List.take_of_length_le (by rw [hlen])
  have h0 : startRecording silentScenarioOptions (initialSessionState silentScenarioOptions) =
      ⟨⟨.recording, some "Live dictation (adaptive streaming)"⟩, true, true, 0, [], "", [],
        ⟨[], 0⟩, ⟨180, 1, 180⟩, 0, [], [], [],
        [.stateChanged ⟨.recording, some "Live dictation (adaptive streaming)"⟩]⟩ := by
    norm_num [startRecording, initialSessionState, startAdaptiveState, setState,
      silentScenarioOptions, AudioQueue.empty]
  have h1 : onChunkArrival
      (⟨⟨.recording, some "Live dictation (adaptive streaming)"⟩, true, true, 0, [], "", [],
        ⟨[], 0⟩, ⟨180, 1, 180⟩, 0, [], [], [],
        [.stateChanged ⟨.recording, some "Live dictation (adaptive streaming)"⟩]⟩ : SessionState)
      chunk 0 =
      ⟨⟨.recording, some "Live dictation (adaptive streaming)"⟩, true, true, 0, [], "", [chunk],
        ⟨[⟨chunk, 0, 0⟩], 3200⟩, ⟨180, 1, 180⟩, 0, [], [], [],
        [.stateChanged ⟨.recording, some "Live dictation (adaptive streaming)"⟩]⟩ := by
    norm_num [onChunkArrival, enqueueAudioChunk, hlen]
  have hdrain : drainChunks [⟨chunk, 0, 0⟩] 3200 1 = (chunk, [], 0) := by
    norm_num [drainChunks, hlen, htakechunk, hmin, List.drop_zero]
  have htake : takeNextAudioSlice silentScenarioOptions
      (⟨⟨.transcribing, some "Draining audio queue"⟩, false, false, 0, [], "", [chunk],
        ⟨[⟨chunk, 0, 0⟩], 3200⟩, ⟨180, 1, 180⟩, 0, [], [], [],
        [.stateChanged ⟨.recording, some "Live dictation (adaptive streaming)"⟩,
         .stateChanged ⟨.transcribing, some "Draining audio queue"⟩]⟩ : SessionState)
      true 1 =
      (some ⟨chunk, 0⟩,
        ⟨⟨.transcribing, some "Draining audio queue"⟩, false, false, 0, [], "", [chunk],
          ⟨[], 0⟩, ⟨180, 1, 180⟩, 0, [], [], [],
          [.stateChanged ⟨.recording, some "Live dictation (adaptive streaming)"⟩,
           .stateChanged ⟨.transcribing, some "Draining audio queue"⟩]⟩) := by
    norm_num [takeNextAudioSlice, readPendingAudioSlice, hdrain, hlen]
  have hskip : processAudioSlice silentScenarioOptions
      (⟨⟨.transcribing, some "Draining audio queue"⟩, false, false, 1, [], "", [chunk],
        ⟨[], 0⟩, ⟨180, 1, 180⟩, 0, [], [], [],
        [.stateChanged ⟨.recording, some "Live dictation (adaptive streaming)"⟩,
         .stateChanged ⟨.transcribing, some "Draining audio queue"⟩]⟩ : SessionState)
      ⟨chunk, 0⟩ ⟨1, 1, 0, 0, 1⟩ none =
      ⟨⟨.transcribing, some "Draining audio queue"⟩, false, false, 1, [], "", [chunk],
        ⟨[], 0⟩, ⟨180, 1, 180⟩, 0, [], [], [],
        [.stateChanged ⟨.recording, some "Live dictation (adaptive streaming)"⟩,
         .stateChanged ⟨.transcribing, some "Draining audio queue"⟩]⟩ := by
    apply processAudioSlice_gate_skip
    · exact hgate
    · norm_num
  have htake2 : takeNextAudioSlice silentScenarioOptions
      (⟨⟨.transcribing, some "Draining audio queue"⟩, false, false, 1, [], "", [chunk],
        ⟨[], 0⟩, ⟨180, 1, 180⟩, 0, [], [], [],
        [.stateChanged ⟨.recording, some "Live dictation (adaptive streaming)"⟩,
         .stateChanged ⟨.transcribing, some "Draining audio queue"⟩]⟩ : SessionState)
      true 2 =
      (none,
        ⟨⟨.transcribing, some "Draining audio queue"⟩, false, false, 1, [], "", [chunk],
          ⟨[], 0⟩, ⟨180, 1, 180⟩, 0, [], [], [],
          [.stateChanged ⟨.recording, some "Live dictation (adaptive streaming)"⟩,
           .stateChanged ⟨.transcribing, some "Draining audio queue"⟩]⟩) := by
    norm_num [takeNextAudioSlice]
  have hloop : runAsrLoop silentScenarioOptions 4
      (⟨⟨.transcribing, some "Draining audio queue"⟩, false, false, 0, [], "", [chunk],
        ⟨[⟨chunk, 0, 0⟩], 3200⟩, ⟨180, 1, 180⟩, 0, [], [], [],
        [.stateChanged ⟨.recording, some "Live dictation (adaptive streaming)"⟩,
         .stateChanged ⟨.transcribing, some "Draining audio queue"⟩]⟩ : SessionState)
      [⟨1, ⟨1, 1, 0, 0, 1⟩, none⟩, ⟨2, ⟨2, 2, 0, 0, 2⟩, none⟩] =
      ⟨⟨.transcribing, some "Draining audio queue"⟩, false, false, 1, [], "", [chunk],
        ⟨[], 0⟩, ⟨180, 1, 180⟩, 0, [], [], [],
        [.stateChanged ⟨.recording, some "Live dictation (adaptive streaming)"⟩,
         .stateChanged ⟨.transcribing, some "Draining audio queue"⟩]⟩ := by
    rw [runAsrLoop]
    dsimp only [List.headD, List.tail]
    simp only [Bool.not_false]
    simp only [htake]
    simp only [hskip, runAsrLoop]
    dsimp only [List.headD, List.tail]
    simp only [Bool.not_false]
    simp only [htake2]
  have hraw : normalizeRawTranscript ([] : List String) = "" := rfl
  have hflush : processStreamFlush silentScenarioOptions
      (⟨⟨.transcribing, some "Draining audio queue"⟩, false, false, 1, [], "", [chunk],
        ⟨[], 0⟩, ⟨180, 1, 180⟩, 0, [], [], [],
        [.stateChanged ⟨.recording, some "Live dictation (adaptive streaming)"⟩,
         .stateChanged ⟨.transcribing, some "Draining audio queue"⟩]⟩ : SessionState)
      none =
      ⟨⟨.transcribing, some "Draining audio queue"⟩, false, false, 1, [], "", [chunk],
        ⟨[], 0⟩, ⟨180, 1, 180⟩, 0, [], [], [],
        [.stateChanged ⟨.recording, some "Live dictation (adaptive streaming)"⟩,
         .stateChanged ⟨.transcribing, some "Draining audio queue"⟩]⟩ := by
    norm_num [processStreamFlush]
  have hafter : stopAndProcessAfterDrain silentScenarioOptions
      (⟨⟨.transcribing, some "Draining audio queue"⟩, false, false, 1, [], "", [chunk],
        ⟨[], 0⟩, ⟨180, 1, 180⟩, 0, [], [], [],
        [.stateChanged ⟨.recording, some "Live dictation (adaptive streaming)"⟩,
         .stateChanged ⟨.transcribing, some "Draining audio queue"⟩]⟩ : SessionState)
      ⟨none, none, none, false⟩ =
      ⟨⟨.idle, some "No speech detected"⟩, false, false, 1, [], "", [chunk],
        ⟨[], 0⟩, ⟨180, 1, 180⟩, 0, [], [], [],
        [.stateChanged ⟨.recording, some "Live dictation (adaptive streaming)"⟩,
         .stateChanged ⟨.transcribing, some "Draining audio queue"⟩,
         .stateChanged ⟨.idle, some "No speech detected"⟩]⟩ := by
    have hcond : (decide (silentScenarioOptions.asrBackend = AsrBackend.parakeetNative) &&
        silentScenarioOptions.parakeetFinalPass &&
        decide (([chunk] : List (List Nat)) ≠ [])) = false := by
      simp [silentScenarioOptions]
    have hempty : ("" : String).isEmpty = true := by decide
    unfold stopAndProcessAfterDrain
    dsimp only
    rw [hcond]
    simp only [Bool.false_eq_true, if_false, hraw, hempty, if_true]
    dsimp only [setState]
    simp only [List.cons_append, List.nil_append]
  rw [h0, h1]
  rw [stopAndProcess]
  dsimp only [setState]
  simp only [List.cons_append, List.nil_append]
  rw [hloop, hflush, hafter]
  norm_num [stopFinally, AudioQueue.empty]

theorem silentSessionRun_eval :
    silentSessionRun =
      ⟨⟨.idle, some "No speech detected"⟩, false, false, 0, [], "", [],
        ⟨[], 0⟩, ⟨180, 1, 180⟩, 0, [], [], [],
        [.stateChanged ⟨.recording, some "Live dictation (adaptive streaming)"⟩,
         .stateChanged ⟨.transcribing, some "Draining audio queue"⟩,
         .stateChanged ⟨.idle, some "No speech detected"⟩]⟩ := by
  unfold silentSessionRun
  exact silent_release_eval silentChunk silentChunk_length
    (by rw [estimateDbfsGE_silentChunk]; decide)

/-- C3 amended — releasing a session that received one 100 ms chunk that fails
the speech gate passes nothing to the injector, emits no `dictationCompleted`
event, and returns to idle with detail "No speech detected". -/
theorem silent_release_no_dictation_event (chunk : List Nat)
    (hlen : chunk.length = 3200)
    (hgate : estimateDbfsGE chunk (-52) = false) :
    (stopAndProcess silentScenarioOptions
        (onChunkArrival
          (startRecording silentScenarioOptions (initialSessionState silentScenarioOptions))
          chunk 0) 4
        [⟨1, ⟨1, 1, 0, 0, 1⟩, none⟩, ⟨2, ⟨2, 2, 0, 0, 2⟩, none⟩]
        ⟨none, none, none, false⟩).injectorCalls = [] ∧
      hasDictationCompleted (stopAndProcess silentScenarioOptions
        (onChunkArrival
          (startRecording silentScenarioOptions (initialSessionState silentScenarioOptions))
          chunk 0) 4
        [⟨1, ⟨1, 1, 0, 0, 1⟩, none⟩, ⟨2, ⟨2, 2, 0, 0, 2⟩, none⟩]
        ⟨none, none, none, false⟩).events = false ∧
      (stopAndProcess silentScenarioOptions
        (onChunkArrival
          (startRecording silentScenarioOptions (initialSessionState silentScenarioOptions))
          chunk 0) 4
        [⟨1, ⟨1, 1, 0, 0, 1⟩, none⟩, ⟨2, ⟨2, 2, 0, 0, 2⟩, none⟩]
        ⟨none, none, none, false⟩).state = ⟨.idle, some "No speech detected"⟩ := by
  rw [silent_release_eval chunk hlen hgate]
  exact ⟨rfl, rfl, rfl⟩

/-- Witness for C3 amended: the all-zero 100 ms chunk satisfies both
hypotheses, and the session run ends with an empty injector trace. -/
theorem silent_release_witness :
    silentChunk.length = 3200 ∧ estimateDbfsGE silentChunk (-52) = false ∧
      ((stopAndProcess silentScenarioOptions
          (onChunkArrival
            (startRecording silentScenarioOptions (initialSessionState silentScenarioOptions))
            silentChunk 0) 4
          [⟨1, ⟨1, 1, 0, 0, 1⟩, none⟩, ⟨2, ⟨2, 2, 0, 0, 2⟩, none⟩]
          ⟨none, none, none, false⟩).injectorCalls = [] ∧
        hasDictationCompleted (stopAndProcess silentScenarioOptions
          (onChunkArrival
            (startRecording silentScenarioOptions (initialSessionState silentScenarioOptions))
            silentChunk 0) 4
          [⟨1, ⟨1, 1, 0, 0, 1⟩, none⟩, ⟨2, ⟨2, 2, 0, 0, 2⟩, none⟩]
          ⟨none, none, none, false⟩).events = false ∧
        (stopAndProcess silentScenarioOptions
          (onChunkArrival
            (startRecording silentScenarioOptions (initialSessionState silentScenarioOptions))
            silentChunk 0) 4
          [⟨1, ⟨1, 1, 0, 0, 1⟩, none⟩, ⟨2, ⟨2, 2, 0, 0, 2⟩, none⟩]
          ⟨none, none, none, false⟩).state = ⟨.idle, some "No speech detected"⟩) :=
  ⟨silentChunk_length, by rw [estimateDbfsGE_silentChunk]; decide,
    silent_release_no_dictation_event silentChunk silentChunk_length
      (by rw [estimateDbfsGE_silentChunk]; decide)⟩

/-- C3 counterexample — in the trivial-flush scenario no `dictationCompleted`
event is emitted at all (the claim asserts one with an empty raw transcript),
and the injector is never called. -/
theorem silent_session_no_dictation_counterexample :
    silentSessionRun.injectorCalls = [] ∧
      hasDictationCompleted silentSessionRun.events = false := by
  rw [silentSessionRun_eval]
  exact ⟨rfl, rfl⟩

/-! ### ASR-failure handling (C7) -/

theorem updateAdaptiveWindow_ewma (opts : LatencyOptions) (a : AdaptiveState)
    (audioMs asrElapsedMs pendingMs : ℚ) :
    (updateAdaptiveWindow opts a audioMs asrElapsedMs pendingMs).ewmaAsrRtf =
        (1 - 0.18) * a.ewmaAsrRtf + 0.18 * (asrElapsedMs / max audioMs 1) ∧
      (updateAdaptiveWindow opts a audioMs asrElapsedMs pendingMs).ewmaAsrMs =
        (1 - 0.18) * a.ewmaAsrMs + 0.18 * asrElapsedMs := by
  unfold updateAdaptiveWindow
  dsimp only
  split
  · constructor <;> ring
  · constructor <;> ring

/-- C7 — when the ASR request for a slice that passed the speech gate fails,
no transcript text, injector call or latency sample is produced and the
transcript buffers, state, and queue are unchanged, yet both EWMAs are updated
exactly as for a successful call. -/
theorem asr_failure_updates_ewma_only (opts : LatencyOptions) (st : SessionState)
    (slice : PendingSlice) (clock : SliceClock)
    (hgate : estimateDbfsGE slice.data opts.silenceGateDbfs = true ∨
      ¬(st.speechHangoverUntilMs < clock.nowMs)) :
    (processAudioSlice opts st slice clock none).rawTranscriptParts = st.rawTranscriptParts ∧
    (processAudioSlice opts st slice clock none).liveInjectedText = st.liveInjectedText ∧
    (processAudioSlice opts st slice clock none).injectorCalls = st.injectorCalls ∧
    (processAudioSlice opts st slice clock none).latencySamples = st.latencySamples ∧
    (processAudioSlice opts st slice clock none).state = st.state ∧
    (processAudioSlice opts st slice clock none).queue = st.queue ∧
    (processAudioSlice opts st slice clock none).adaptive.ewmaAsrRtf =
      (1 - 0.18) * st.adaptive.ewmaAsrRtf +
        0.18 * (clock.asrElapsedMs / max (bytesToMs slice.data.length) 1) ∧
    (processAudioSlice opts st slice clock none).adaptive.ewmaAsrMs =
      (1 - 0.18) * st.adaptive.ewmaAsrMs + 0.18 * clock.asrElapsedMs := by
  have hcond : (!estimateDbfsGE slice.data opts.silenceGateDbfs &&
      decide (st.speechHangoverUntilMs < clock.nowMs)) = false := by
    rcases hgate with h | h <;> simp [h]
  unfold processAudioSlice
  dsimp only
  simp only [hcond, Bool.false_eq_true, if_false]
  by_cases hg : estimateDbfsGE slice.data opts.silenceGateDbfs = true <;>
    simp [hg, updateAdaptiveWindow_ewma]

/-- Witness for C7: a failed ASR call on a slice inside the hangover window. -/
theorem asr_failure_updates_ewma_only_witness :
    (estimateDbfsGE gateHangoverSlice.data silentScenarioOptions.silenceGateDbfs = true ∨
      ¬(gateHangoverState.speechHangoverUntilMs < gateHangoverClock.nowMs)) ∧
    ((processAudioSlice silentScenarioOptions gateHangoverState gateHangoverSlice
        gateHangoverClock none).rawTranscriptParts = gateHangoverState.rawTranscriptParts ∧
    (processAudioSlice silentScenarioOptions gateHangoverState gateHangoverSlice
        gateHangoverClock none).liveInjectedText = gateHangoverState.liveInjectedText ∧
    (processAudioSlice silentScenarioOptions gateHangoverState gateHangoverSlice
        gateHangoverClock none).injectorCalls = gateHangoverState.injectorCalls ∧
    (processAudioSlice silentScenarioOptions gateHangoverState gateHangoverSlice
        gateHangoverClock none).latencySamples = gateHangoverState.latencySamples ∧
    (processAudioSlice silentScenarioOptions gateHangoverState gateHangoverSlice
        gateHangoverClock none).state = gateHangoverState.state ∧
    (processAudioSlice silentScenarioOptions gateHangoverState gateHangoverSlice
        gateHangoverClock none).queue = gateHangoverState.queue ∧
    (processAudioSlice silentScenarioOptions gateHangoverState gateHangoverSlice
        gateHangoverClock none).adaptive.ewmaAsrRtf =
      (1 - 0.18) * gateHangoverState.adaptive.ewmaAsrRtf +
        0.18 * (gateHangoverClock.asrElapsedMs /
          max (bytesToMs gateHangoverSlice.data.length) 1) ∧
    (processAudioSlice silentScenarioOptions gateHangoverState gateHangoverSlice
        gateHangoverClock none).adaptive.ewmaAsrMs =
      (1 - 0.18) * gateHangoverState.adaptive.ewmaAsrMs +
        0.18 * gateHangoverClock.asrElapsedMs) :=
  ⟨Or.inr (by decide),
    asr_failure_updates_ewma_only silentScenarioOptions gateHangoverState gateHangoverSlice
      gateHangoverClock (Or.inr (by decide))⟩

/-! ### The stream-flush routing (C2) -/

theorem liveChunkPipeline_eq_flush_then_dedupe (cmds : Bool) (live text : String) :
    liveChunkPipeline cmds live text =
      match flushTailPipeline cmds text with
      | none => none
      | some tail =>
        if (dedupeChunkAgainstLiveTranscript live tail).isEmpty then none
        else some (dedupeChunkAgainstLiveTranscript live tail) := by
  unfold liveChunkPipeline flushTailPipeline
  by_cases h1 : (jsTrim text).isEmpty = true <;>
    by_cases h2 : ((if cmds then transform (jsTrim text)
      else ⟨jsTrim text, 0⟩ : SpokenFormattingResult)).text.isEmpty = true <;>
    by_cases h3 : (normalizeLiveChunkOutput ((if cmds then transform (jsTrim text)
      else ⟨jsTrim text, 0⟩ : SpokenFormattingResult)).text).isEmpty = true <;>
    simp [h1, h2, h3]

/-- C2 counterexample — with live transcript "hello world " and flush text
"world today", the flush path appends and injects "world today " verbatim,
while the claimed rewrite-then-dedup routing would inject "today ". -/
theorem flush_skips_dedupe_counterexample :
    (processStreamFlush flushScenarioOptions flushScenarioState
        (some "world today")).injectorCalls =
      flushScenarioState.injectorCalls ++ ["world today "] ∧
    dedupeChunkAgainstLiveTranscript flushScenarioState.liveInjectedText
      (normalizeLiveChunkOutput (transform (jsTrim "world today")).text) = "today " ∧
    ("world today " : String) ≠ "today " := by
  decide

/-- C2 amended — the flush tail is routed through the same trim, rewriter and
live-chunk normalisation as streaming results but is appended to `raw_parts`,
the live transcript and the injector without the overlap-dedup step; the
slice path is exactly the flush path followed by dedup. -/
theorem flush_routed_without_dedupe :
    (∀ (opts : LatencyOptions) (st : SessionState) (text : String),
      opts.asrBackend ≠ AsrBackend.parakeetNative →
      processStreamFlush opts st (some text) =
        match flushTailPipeline opts.spokenFormattingCommands text with
        | none => st
        | some tail =>
          { st with
            rawTranscriptParts := st.rawTranscriptParts ++ [tail]
            liveInjectedText := st.liveInjectedText ++ tail
            injectorCalls := st.injectorCalls ++ [tail] }) ∧
    (∀ (cmds : Bool) (live text : String),
      liveChunkPipeline cmds live text =
        match flushTailPipeline cmds text with
        | none => none
        | some tail =>
          if (dedupeChunkAgainstLiveTranscript live tail).isEmpty then none
          else some (dedupeChunkAgainstLiveTranscript live tail)) := by
  constructor
  · intro opts st text hb
    unfold processStreamFlush
    rw [if_neg hb]
  · exact liveChunkPipeline_eq_flush_then_dedupe

/-- Witness for C2 amended: the non-Parakeet flush scenario. -/
theorem flush_routed_without_dedupe_witness :
    flushScenarioOptions.asrBackend ≠ AsrBackend.parakeetNative ∧
    processStreamFlush flushScenarioOptions flushScenarioState (some "world today") =
      (match flushTailPipeline flushScenarioOptions.spokenFormattingCommands "world today" with
      | none => flushScenarioState
      | some tail =>
        { flushScenarioState with
          rawTranscriptParts := flushScenarioState.rawTranscriptParts ++ [tail]
          liveInjectedText := flushScenarioState.liveInjectedText ++ tail
          injectorCalls := flushScenarioState.injectorCalls ++ [tail] }) :=
  ⟨by decide,
    flush_routed_without_dedupe.1 flushScenarioOptions flushScenarioState "world today"
      (by decide)⟩

/-! ### The overlap deduper (C1) -/

/-- C1 counterexample — dedup is not idempotent: with existing transcript
"the cat" and chunk "the cat cat", the first application leaves "cat" and a
second application removes it entirely. -/
theorem dedupe_not_idempotent_counterexample :
    dedupeChunkAgainstLiveTranscript "the cat"
        (dedupeChunkAgainstLiveTranscript "the cat" "the cat cat") ≠
      dedupeChunkAgainstLiveTranscript "the cat" "the cat cat" := by
  decide

theorem dedupe_empty_chunk (existing : String) :
    dedupeChunkAgainstLiveTranscript existing "" = "" := by
  simp [dedupeChunkAgainstLiveTranscript, jsTrimList]

/-- C1 amended — dedup is idempotent whenever the first application returns the
chunk unchanged or returns the empty string; in general a second application
can remove further words. -/
theorem dedupe_idempotent_when_unchanged_or_empty (existing chunk : String)
    (h : dedupeChunkAgainstLiveTranscript existing chunk = chunk ∨
      dedupeChunkAgainstLiveTranscript existing chunk = "") :
    dedupeChunkAgainstLiveTranscript existing
        (dedupeChunkAgainstLiveTranscript existing chunk) =
      dedupeChunkAgainstLiveTranscript existing chunk := by
  rcases h with h | h
  · rw [h]; exact h
  · rw [h, dedupe_empty_chunk]

/-- Witness for C1 amended: a chunk with no overlap is returned unchanged and
a second application is the identity on it. -/
theorem dedupe_idempotent_witness :
    dedupeChunkAgainstLiveTranscript "the cat" "dog runs" = "dog runs" ∧
      dedupeChunkAgainstLiveTranscript "the cat"
          (dedupeChunkAgainstLiveTranscript "the cat" "dog runs") =
        dedupeChunkAgainstLiveTranscript "the cat" "dog runs" :=
  ⟨by decide,
    dedupe_idempotent_when_unchanged_or_empty "the cat" "dog runs" (Or.inl (by decide))⟩

/-! ### The spoken-punctuation rewriter (C8) -/

/-- C8 counterexample — on the input of end-to-end scenario 4 the rewriter
produces the claimed text but counts three applied commands, not four. -/
theorem transform_example_counterexample :
    ¬((transform "hello comma world full stop new line next").text = "hello, world.\nnext" ∧
      (transform "hello comma world full stop new line next").appliedCommands = 4) := by
  decide

/-- C8 amended — the rewriter maps
"hello comma world full stop new line next" to "hello, world.\nnext", counting
one applied command per rule match: three in total (comma, full stop,
new line). -/
theorem transform_example :
    transform "hello comma world full stop new line next" =
      ⟨"hello, world.\nnext", 3⟩ := by
  decide

/-! ### Capture chunk-duration range checks (C9) -/

/-- C9 counterexample — `chunk_ms = 20` lies in the claimed range `[20, 2000]`,
yet `FfmpegRecorder.startStreaming` rejects it with the range error. -/
theorem ffmpeg_rejects_20ms_counterexample :
    (20 : ℚ) ≤ 20 ∧ (20 : ℚ) ≤ 2000 ∧
      ffmpegStartStreamingCheck false 20 = .chunkRangeError := by
  decide

/-- C9 amended — `FfmpegRecorder.startStreaming` accepts exactly
`chunk_ms ∈ [40, 2000]` (throwing the range error outside), while
`RustNativeRecorder.startStreaming` accepts exactly `chunk_ms ∈ [20, 2000]`. -/
theorem recorder_chunk_range_checks (chunkMs : ℚ) :
    (ffmpegStartStreamingCheck false chunkMs = .ok ↔ 40 ≤ chunkMs ∧ chunkMs ≤ 2000) ∧
    (ffmpegStartStreamingCheck false chunkMs = .chunkRangeError ↔
      (chunkMs < 40 ∨ 2000 < chunkMs)) ∧
    (rustNativeStartStreamingCheck false chunkMs = .ok ↔ 20 ≤ chunkMs ∧ chunkMs ≤ 2000) := by
  have hff : ffmpegStartStreamingCheck false chunkMs =
      if chunkMs < 40 ∨ 2000 < chunkMs then RecorderStartCheck.chunkRangeError
      else .ok := by
    simp [ffmpegStartStreamingCheck]
  have hrr : rustNativeStartStreamingCheck false chunkMs =
      if chunkMs < 20 ∨ 2000 < chunkMs then RecorderStartCheck.chunkRangeError
      else .ok := by
    simp [rustNativeStartStreamingCheck]
  refine ⟨?_, ?_, ?_⟩
  · rw [hff]
    by_cases h : chunkMs < 40 ∨ 2000 < chunkMs
    · rw [if_pos h]
      simp only [reduceCtorEq, false_iff]
      rintro ⟨h1, h2⟩
      rcases h with h | h <;> linarith
    · rw [if_neg h]
      push_neg at h
      simpa using h
  · rw [hff]
    by_cases h : chunkMs < 40 ∨ 2000 < chunkMs
    · rw [if_pos h]
      simpa using h
    · rw [if_neg h]
      simpa using h
  · rw [hrr]
    by_cases h : chunkMs < 20 ∨ 2000 < chunkMs
    · rw [if_pos h]
      simp only [reduceCtorEq, false_iff]
      rintro ⟨h1, h2⟩
      rcases h with h | h <;> linarith
    · rw [if_neg h]
      push_neg at h
      simpa using h

end DingoFlow
